import Mathlib

/-!
Shallow embedding of `readcompressibility.go` (repository
kbullaugheysas/readcompressability) and proofs checking the repository's
specification against it.

The program's `main` loop reads one or two FASTQ streams in lock-step, one
physical line per stream per iteration, cycling through the 4-line FASTQ
record structure via `line_num % 4`.  On header lines (offset 0) it extracts
the read identity; on sequence lines (offset 1) it accumulates the line's
length into `full_len` and writes the line (plus a newline, via
`fmt.Fprintln`) into a fresh per-read zlib compressor; after the offset-1
step it closes the compressor, measures the compressed buffer, and emits a
tab-separated output row.  Streams are modelled as lists of lines, each line the
list of its characters (the lines produced by `bufio.Scanner`, without
terminators); the zlib compressor is an
external collaborator and is modelled by a size function `czip` applied to
the exact bytes written into it (see `zlibModelSize`).
-/

namespace ReadCompressability

/-- One emitted output row: `read_name`, `full_len` and `compressed_len`
from the `fmt.Fprintf(output, "%s\t%d\t%d\t%0.4f\n", ...)` call in `main`.
The ratio column is derived from `rawLen` and `compressedLen` at formatting
time (see `formatRow`), exactly as in the source. -/
structure Row where
  name : List Char
  rawLen : Nat
  compressedLen : Nat
deriving DecidableEq, Repr

/-- The three error values `main`'s inner closure can return, with the data
that `fmt.Errorf` interpolates into each message. `malformed` is the
offset-0 sigil check, `nameMismatch` the `-check` identity comparison
(carrying `i+1`, the 1-based input number the source reports), and
`desync` the failure of scanner `i > 0` to produce a line. -/
inductive RunError where
  | malformed (lineNum : Nat) (content : List Char)
  | nameMismatch (expected : List Char) (lineNum : Nat) (inputNum : Nat) (got : List Char)
  | desync (streamIdx : Nat)
deriving DecidableEq, Repr

/-- The exact text built by the corresponding `fmt.Errorf` call in `main`. -/
def RunError.message : RunError → String
  | .malformed n content =>
      "Line " ++ toString n ++ " should be a fastq header line, got: "
        ++ String.mk content ++ "\n"
  | .nameMismatch expected n inputNum got =>
      "expecting read " ++ String.mk expected ++ " on line " ++ toString n
        ++ " in input " ++ toString inputNum ++ ", got " ++ String.mk got
  | .desync i => "Expecting scanner " ++ toString i ++ " to be able to scan\n"

/-- How a run ends: `done` is the closure returning `nil`, `failed` a
returned error (followed by `log.Fatal`), `panicked` a Go runtime panic
(nil `zwriter` dereference), and `outOfFuel` is an artifact of the fuel
parameter used to express the loop in Lean — it never occurs with the
fuel supplied by `run`. -/
inductive Outcome where
  | done
  | failed (e : RunError)
  | panicked
  | outOfFuel
deriving DecidableEq, Repr

/-- The read identity: `strings.Split(line[1:len(line)], " ")[0]` —
everything after the leading sigil up to (not including) the first space,
or all of it when no space occurs (`Split` then returns the single whole
piece). -/
def readIdent (line : List Char) : List Char :=
  (line.drop 1).takeWhile (fun c => !(c == ' '))

/-- Result of processing one physical line on one stream (the body of the
`if inputScanners[i].Scan()` branch in `main`). `ok` carries the updated
`read_name`, compressor buffer contents, whether a zlib writer has been
allocated, and the updated `full_len`. -/
inductive LineResult where
  | ok (readName : List Char) (buf : List Char) (zw : Bool) (fullLen : Nat)
  | err (e : RunError)
  | panicked
deriving Repr

/-- Go `strings.HasPrefix(line, "@")`: the line begins with the header
sigil byte. -/
def hasAtSigil : List Char → Bool
  | '@' :: _ => true
  | _ => false

/-- One line of stream `i` at cycle position `lineNum`, translated from the
`line_num % 4` dispatch in `main`: offset 0 checks the `@` sigil, extracts
the identity, and for stream 0 resets the buffer and allocates a fresh zlib
writer, while for later streams it optionally checks the identity; offset 1
adds the line length to `full_len` and appends `line ++ ['\n']` to the
compressor's input (a nil writer would make `fmt.Fprintln` panic); offsets
2 and 3 discard the line. -/
def procLine (checkNames : Bool) (lineNum i : Nat) (line : List Char)
    (readName buf : List Char) (zw : Bool) (fullLen : Nat) : LineResult :=
  if lineNum % 4 = 0 then
    if hasAtSigil line then
      if i = 0 then
        .ok (readIdent line) [] true fullLen
      else if checkNames ∧ readIdent line ≠ readName then
        .err (.nameMismatch readName lineNum (i + 1) (readIdent line))
      else
        .ok readName buf zw fullLen
    else
      .err (.malformed lineNum line)
  else if lineNum % 4 = 1 then
    if zw then
      .ok readName (buf ++ line ++ ['\n']) zw (fullLen + line.length)
    else
      .panicked
  else
    .ok readName buf zw fullLen

/-- Result of one pass of the inner `for i := 0; i < len(fq); i++` loop:
either every stream produced a line (`ok`, with the remaining stream
contents and the updated per-read state), or the pass stopped — stream 0
exhausted (`done`), a stream `i > 0` exhausted (`desync`), a validation
error, or a panic. -/
inductive ScanResult where
  | ok (streams : List (List (List Char))) (readName : List Char) (buf : List Char)
      (zw : Bool) (fullLen : Nat)
  | stop (o : Outcome)
deriving Repr

/-- The inner per-line loop over all streams, from index `i` on: pull one
line from each stream in index order and process it with `procLine`.  An
exhausted stream means `done` for stream 0 and a `desync` error otherwise,
exactly as in the `else` branch of `if inputScanners[i].Scan()`. -/
def scanAll (checkNames : Bool) (lineNum i : Nat) (streams : List (List (List Char)))
    (readName buf : List Char) (zw : Bool) (fullLen : Nat) : ScanResult :=
  match streams with
  | [] => .ok [] readName buf zw fullLen
  | s :: rest =>
    match s with
    | [] => .stop (if i = 0 then .done else .failed (.desync i))
    | line :: s' =>
      match procLine checkNames lineNum i line readName buf zw fullLen with
      | .err e => .stop (.failed e)
      | .panicked => .stop .panicked
      | .ok rn b z f =>
        match scanAll checkNames lineNum (i + 1) rest rn b z f with
        | .stop o => .stop o
        | .ok rest' rn' b' z' f' => .ok (s' :: rest') rn' b' z' f'

/-- The mutable state of `main`'s outer loop: the unread remainder of every
input stream, `line_num`, `read_count`, `read_name`, the bytes written into
the current read's compressor (`read_buf`/`zwriter` contents), whether a
zlib writer has been allocated, and the rows written to the output so far. -/
structure RunState where
  streams : List (List (List Char))
  lineNum : Nat
  readCount : Nat
  readName : List Char
  buf : List Char
  zw : Bool
  rows : List Row
deriving DecidableEq, Repr

/-- The outer `for {}` loop of `main`, with an explicit fuel parameter to
express the recursion (the Go loop terminates because every continuing
iteration consumes a line of stream 0; `run` supplies ample fuel).  Each
iteration: stop with `done` if a positive limit has been reached; pull one
line from every stream (`scanAll`); then, if this was an offset-1
(sequence) line, close the zlib writer (a panic if none was ever allocated,
which happens exactly when there are no streams), measure the compressed
buffer with `czip`, emit a row, and bump `read_count`; finally bump
`line_num`. -/
def runLoop (limit : Nat) (checkNames : Bool) (czip : List Char → Nat) :
    Nat → RunState → Outcome × RunState
  | 0, st => (.outOfFuel, st)
  | fuel + 1, st =>
    if 0 < limit ∧ limit ≤ st.readCount then (.done, st)
    else
      match scanAll checkNames st.lineNum 0 st.streams st.readName st.buf st.zw 0 with
      | .stop o => (o, st)
      | .ok streams' rn buf' zw' fullLen =>
        if st.lineNum % 4 = 1 then
          if zw' then
            runLoop limit checkNames czip fuel
              { streams := streams', lineNum := st.lineNum + 1,
                readCount := st.readCount + 1, readName := rn, buf := buf', zw := zw',
                rows := st.rows ++ [⟨rn, fullLen, czip buf'⟩] }
          else
            (.panicked, st)
        else
          runLoop limit checkNames czip fuel
            { streams := streams', lineNum := st.lineNum + 1,
              readCount := st.readCount, readName := rn, buf := buf', zw := zw',
              rows := st.rows }

/-- Fuel that always suffices: every continuing iteration of the loop
consumes one line of stream 0, and a streamless run stops (with a panic)
within two iterations. -/
def fuelFor (streams : List (List (List Char))) : Nat :=
  4 * (streams.headD []).length + 8

/-- A whole run of `main`'s record-reading loop on the given input streams
(each a list of scanned lines), returning the outcome together with the
final state; `(run ...).2.rows` are the emitted output rows in order. -/
def run (limit : Nat) (checkNames : Bool) (czip : List Char → Nat)
    (streams : List (List (List Char))) : Outcome × RunState :=
  runLoop limit checkNames czip (fuelFor streams)
    { streams := streams, lineNum := 0, readCount := 0, readName := [], buf := [],
      zw := false, rows := [] }

/-- Modelled from the spec: the external zlib compressor's container
framing.  The `compress/zlib` writer used by the source is not part of this
repository; per the spec its finalized output is "the literal size of the
compressor's output container, not merely the payload", reflecting "the
compressor's own framing/header overhead".  We model the container as a
2-byte zlib header. -/
def zlibHeaderLen : Nat := 2

/-- Modelled from the spec: the 4-byte Adler-32 checksum trailer that the
zlib container appends after the deflate body. -/
def zlibChecksumLen : Nat := 4

/-- Modelled from the spec: the deflate body produced for the written
payload, modelled as a block header of 5 bytes plus the payload bytes (a
stored-block-style deterministic size model; the claims under proof depend
only on the container being deterministic, strictly positive, and a
function of exactly the bytes written into it). -/
def deflateModelLen (data : List Char) : Nat := 5 + data.length

/-- Modelled from the spec: total finalized container size returned by the
Compression Measurer — header, deflate body, and checksum trailer. -/
def zlibModelSize (data : List Char) : Nat :=
  zlibHeaderLen + deflateModelLen data + zlibChecksumLen

/-- Decimal digit character, as produced for the `%d` and `%0.4f` verbs. -/
def digitChar (n : Nat) : Char := Char.ofNat (48 + n % 10)

/-- The exactly-four fractional digits of the `%0.4f` verb (most
significant first). -/
def pad4 (x : Nat) : String :=
  ⟨[digitChar (x / 1000), digitChar (x / 100), digitChar (x / 10), digitChar x]⟩

/-- Round `num / den` to the nearest integer, ties to even — the rounding
of Go's floating-point formatting, applied here to the exact rational. -/
def roundHalfEven (num den : Nat) : Nat :=
  if 2 * (num % den) < den then num / den
  else if den < 2 * (num % den) then num / den + 1
  else if (num / den) % 2 = 0 then num / den else num / den + 1

/-- The ratio column: `float64(full_len) / float64(compressed_len)`
rendered by `%0.4f`.  The float division is modelled as exact rational
arithmetic rounded half-to-even at the fourth decimal; a zero divisor
renders as Go prints `NaN`/`+Inf`. -/
def formatRatio (raw clen : Nat) : String :=
  if clen = 0 then (if raw = 0 then "NaN" else "+Inf")
  else
    let d := roundHalfEven (raw * 10000) clen
    toString (d / 10000) ++ "." ++ pad4 (d % 10000)

/-- One output line, from
`fmt.Fprintf(output, "%s\t%d\t%d\t%0.4f\n", read_name, full_len, compressed_len, r)`. -/
def formatRow (r : Row) : String :=
  String.mk r.name ++ "\t" ++ toString r.rawLen ++ "\t" ++ toString r.compressedLen
    ++ "\t" ++ formatRatio r.rawLen r.compressedLen ++ "\n"

/-! ### Single-iteration lemmas for the outer loop

Each lemma unfolds one iteration of `runLoop` in one specific situation
(cycle offset, stream shapes, whether an error fires). -/

section StepLemmas

variable (limit : Nat) (check : Bool) (czip : List Char → Nat)

/-- Once a positive limit is reached, the loop stops at the top with `done`. -/
lemma step_limit (fuel : Nat) (st : RunState) (hc : 0 < limit)
    (hrc : limit ≤ st.readCount) :
    runLoop limit check czip (fuel + 1) st = (.done, st) := by
  simp [runLoop, hc, hrc]

/-- Stream 0 exhausted: the loop returns `nil` (done), whatever the other
streams still hold. -/
lemma step_done (fuel : Nat) (st : RunState) (rest : List (List (List Char)))
    (hs : st.streams = [] :: rest) :
    runLoop limit check czip (fuel + 1) st = (.done, st) := by
  by_cases hc : 0 < limit ∧ limit ≤ st.readCount <;> simp [runLoop, scanAll, hs, hc]

/-- A header line without the `@` sigil on stream 0 fails the run. -/
lemma step_malformed0 (fuel : Nat) (st : RunState) (b : List Char) (t : List (List Char))
    (rest : List (List (List Char))) (hs : st.streams = (b :: t) :: rest)
    (hl : st.lineNum % 4 = 0) (hw : hasAtSigil b = false)
    (hnl : limit = 0 ∨ st.readCount < limit) :
    runLoop limit check czip (fuel + 1) st = (.failed (.malformed st.lineNum b), st) := by
  have hc : ¬(0 < limit ∧ limit ≤ st.readCount) := by omega
  simp [runLoop, scanAll, procLine, hs, hl, hw, hc]

/-- Single stream, header line: the identity is extracted and a fresh
compressor is allocated. -/
lemma step1_hdr (fuel : Nat) (st : RunState) (h : List Char) (t : List (List Char))
    (hs : st.streams = [h :: t]) (hl : st.lineNum % 4 = 0)
    (hw : hasAtSigil h = true) (hnl : limit = 0 ∨ st.readCount < limit) :
    runLoop limit check czip (fuel + 1) st =
      runLoop limit check czip fuel
        { streams := [t], lineNum := st.lineNum + 1, readCount := st.readCount,
          readName := readIdent h, buf := [], zw := true, rows := st.rows } := by
  have hc : ¬(0 < limit ∧ limit ≤ st.readCount) := by omega
  simp [runLoop, scanAll, procLine, hs, hl, hw, hc]

/-- Single stream, sequence line: the line feeds the compressor and a row
is emitted at once. -/
lemma step1_seq (fuel : Nat) (st : RunState) (l : List Char) (t : List (List Char))
    (hs : st.streams = [l :: t]) (hl : st.lineNum % 4 = 1) (hz : st.zw = true)
    (hnl : limit = 0 ∨ st.readCount < limit) :
    runLoop limit check czip (fuel + 1) st =
      runLoop limit check czip fuel
        { streams := [t], lineNum := st.lineNum + 1, readCount := st.readCount + 1,
          readName := st.readName, buf := st.buf ++ l ++ ['\n'], zw := true,
          rows := st.rows ++ [⟨st.readName, l.length, czip (st.buf ++ l ++ ['\n'])⟩] } := by
  have hc : ¬(0 < limit ∧ limit ≤ st.readCount) := by omega
  simp [runLoop, scanAll, procLine, hs, hl, hz, hc]

/-- Single stream, separator or quality line: consumed, nothing changes. -/
lemma step1_rest (fuel : Nat) (st : RunState) (l : List Char) (t : List (List Char))
    (hs : st.streams = [l :: t]) (hl0 : ¬ st.lineNum % 4 = 0)
    (hl1 : ¬ st.lineNum % 4 = 1) (hnl : limit = 0 ∨ st.readCount < limit) :
    runLoop limit check czip (fuel + 1) st =
      runLoop limit check czip fuel
        { streams := [t], lineNum := st.lineNum + 1, readCount := st.readCount,
          readName := st.readName, buf := st.buf, zw := st.zw, rows := st.rows } := by
  have hc : ¬(0 < limit ∧ limit ≤ st.readCount) := by omega
  simp [runLoop, scanAll, procLine, hs, hl0, hl1, hc]

/-- Two streams, header lines, identities consistent (or checking off). -/
lemma step2_hdr (fuel : Nat) (st : RunState) (h1 h2 : List Char) (t1 t2 : List (List Char))
    (hs : st.streams = [h1 :: t1, h2 :: t2]) (hl : st.lineNum % 4 = 0)
    (hw1 : hasAtSigil h1 = true) (hw2 : hasAtSigil h2 = true)
    (hname : check = true → readIdent h2 = readIdent h1)
    (hnl : limit = 0 ∨ st.readCount < limit) :
    runLoop limit check czip (fuel + 1) st =
      runLoop limit check czip fuel
        { streams := [t1, t2], lineNum := st.lineNum + 1, readCount := st.readCount,
          readName := readIdent h1, buf := [], zw := true, rows := st.rows } := by
  have hc : ¬(0 < limit ∧ limit ≤ st.readCount) := by omega
  cases check with
  | false => simp [runLoop, scanAll, procLine, hs, hl, hw1, hw2, hc]
  | true => simp [runLoop, scanAll, procLine, hs, hl, hw1, hw2, hc, hname rfl]

/-- Two streams, header lines, checking on and the secondary identity
differs: the run fails citing both identities, the line number, and the
1-based input number. -/
lemma step2_mismatch (fuel : Nat) (st : RunState) (h1 h2 : List Char) (t1 t2 : List (List Char))
    (hs : st.streams = [h1 :: t1, h2 :: t2]) (hl : st.lineNum % 4 = 0)
    (hw1 : hasAtSigil h1 = true) (hw2 : hasAtSigil h2 = true)
    (hne : ¬ readIdent h2 = readIdent h1) (hnl : limit = 0 ∨ st.readCount < limit) :
    runLoop limit true czip (fuel + 1) st =
      (.failed (.nameMismatch (readIdent h1) st.lineNum 2 (readIdent h2)), st) := by
  have hc : ¬(0 < limit ∧ limit ≤ st.readCount) := by omega
  simp [runLoop, scanAll, procLine, hs, hl, hw1, hw2, hne, hc]

/-- Two streams, sequence lines: both lines feed the raw length and the
compressor (in stream order), and a row is emitted at once. -/
lemma step2_seq (fuel : Nat) (st : RunState) (l1 l2 : List Char) (t1 t2 : List (List Char))
    (hs : st.streams = [l1 :: t1, l2 :: t2]) (hl : st.lineNum % 4 = 1)
    (hz : st.zw = true) (hnl : limit = 0 ∨ st.readCount < limit) :
    runLoop limit check czip (fuel + 1) st =
      runLoop limit check czip fuel
        { streams := [t1, t2], lineNum := st.lineNum + 1, readCount := st.readCount + 1,
          readName := st.readName, buf := st.buf ++ l1 ++ ['\n'] ++ l2 ++ ['\n'], zw := true,
          rows := st.rows ++
            [⟨st.readName, l1.length + l2.length,
              czip (st.buf ++ l1 ++ ['\n'] ++ l2 ++ ['\n'])⟩] } := by
  have hc : ¬(0 < limit ∧ limit ≤ st.readCount) := by omega
  simp [runLoop, scanAll, procLine, hs, hl, hz, hc]

/-- Two streams, separator or quality lines: consumed, nothing changes. -/
lemma step2_rest (fuel : Nat) (st : RunState) (l1 l2 : List Char) (t1 t2 : List (List Char))
    (hs : st.streams = [l1 :: t1, l2 :: t2]) (hl0 : ¬ st.lineNum % 4 = 0)
    (hl1 : ¬ st.lineNum % 4 = 1) (hnl : limit = 0 ∨ st.readCount < limit) :
    runLoop limit check czip (fuel + 1) st =
      runLoop limit check czip fuel
        { streams := [t1, t2], lineNum := st.lineNum + 1, readCount := st.readCount,
          readName := st.readName, buf := st.buf, zw := st.zw, rows := st.rows } := by
  have hc : ¬(0 < limit ∧ limit ≤ st.readCount) := by omega
  simp [runLoop, scanAll, procLine, hs, hl0, hl1, hc]

/-- Two streams at offset 0, the secondary exhausted while the primary
still has a (valid) header line: desynchronization error on stream 1. -/
lemma step2_desync (fuel : Nat) (st : RunState) (h : List Char) (t : List (List Char))
    (hs : st.streams = [h :: t, []]) (hl : st.lineNum % 4 = 0)
    (hw : hasAtSigil h = true) (hnl : limit = 0 ∨ st.readCount < limit) :
    runLoop limit check czip (fuel + 1) st = (.failed (.desync 1), st) := by
  have hc : ¬(0 < limit ∧ limit ≤ st.readCount) := by omega
  simp [runLoop, scanAll, procLine, hs, hl, hw, hc]

end StepLemmas

/-! ### Whole 4-line record cycles -/

/-- One 4-line FASTQ record as it appears in a stream: header, sequence,
separator, quality. -/
structure Rec4 where
  hdr : List Char
  seq : List Char
  sep : List Char
  qual : List Char
deriving DecidableEq, Repr

/-- The line list of a single stream holding the given records in order. -/
def stream1Lines : List Rec4 → List (List Char)
  | [] => []
  | r :: rs => r.hdr :: r.seq :: r.sep :: r.qual :: stream1Lines rs

/-- The primary-stream line list of a paired input. -/
def streamFst : List (Rec4 × Rec4) → List (List Char)
  | [] => []
  | p :: ps => p.1.hdr :: p.1.seq :: p.1.sep :: p.1.qual :: streamFst ps

/-- The secondary-stream line list of a paired input. -/
def streamSnd : List (Rec4 × Rec4) → List (List Char)
  | [] => []
  | p :: ps => p.2.hdr :: p.2.seq :: p.2.sep :: p.2.qual :: streamSnd ps

/-- The row the loop emits for a single-stream record: identity from the
header, raw length of the sequence line, compressed size of the sequence
line plus the `Fprintln` terminator. -/
def expectedRow1 (czip : List Char → Nat) (r : Rec4) : Row :=
  ⟨readIdent r.hdr, r.seq.length, czip (r.seq ++ ['\n'])⟩

/-- The row the loop emits for a record pair: identity from the primary
header, raw length the sum of both sequence lines, compressed size of both
sequence lines (each with its terminator) in stream order. -/
def expectedRow2 (czip : List Char → Nat) (p : Rec4 × Rec4) : Row :=
  ⟨readIdent p.1.hdr, p.1.seq.length + p.2.seq.length,
    czip (p.1.seq ++ ['\n'] ++ p.2.seq ++ ['\n'])⟩

lemma stream1Lines_length (rs : List Rec4) :
    (stream1Lines rs).length = 4 * rs.length := by
  induction rs with
  | nil => rfl
  | cons r rest ih => simp [stream1Lines, ih]; ring

lemma streamFst_length (ps : List (Rec4 × Rec4)) :
    (streamFst ps).length = 4 * ps.length := by
  induction ps with
  | nil => rfl
  | cons p rest ih => simp [streamFst, ih]; ring

lemma streamSnd_length (ps : List (Rec4 × Rec4)) :
    (streamSnd ps).length = 4 * ps.length := by
  induction ps with
  | nil => rfl
  | cons p rest ih => simp [streamSnd, ih]; ring

/-- Four iterations of the loop on a single stream consume one well-formed
record and emit exactly its row. -/
lemma cycle1 (limit : Nat) (check : Bool) (czip : List Char → Nat) (fuel : Nat)
    (st : RunState) (r : Rec4) (tail : List (List Char))
    (hs : st.streams = [r.hdr :: r.seq :: r.sep :: r.qual :: tail])
    (hl : st.lineNum % 4 = 0) (hw : hasAtSigil r.hdr = true)
    (hnl : limit = 0 ∨ st.readCount + 1 < limit) :
    runLoop limit check czip (fuel + 4) st =
      runLoop limit check czip fuel
        { streams := [tail], lineNum := st.lineNum + 4,
          readCount := st.readCount + 1, readName := readIdent r.hdr,
          buf := r.seq ++ ['\n'], zw := true,
          rows := st.rows ++ [expectedRow1 czip r] } := by
  have h1 : (st.lineNum + 1) % 4 = 1 := by omega
  have h2 : (st.lineNum + 2) % 4 = 2 := by omega
  have h3 : (st.lineNum + 3) % 4 = 3 := by omega
  have hc0 : ¬(0 < limit ∧ limit ≤ st.readCount) := by omega
  have hc1 : ¬(0 < limit ∧ limit ≤ st.readCount + 1) := by omega
  simp [runLoop, scanAll, procLine, expectedRow1, hs, hl, h1, h2, h3, hw, hc0, hc1]

/-- Four iterations of the loop on two streams consume one well-formed
record pair (identities consistent, or checking off) and emit exactly its
row. -/
lemma cycle2 (limit : Nat) (check : Bool) (czip : List Char → Nat) (fuel : Nat)
    (st : RunState) (p : Rec4 × Rec4) (t1 t2 : List (List Char))
    (hs : st.streams = [p.1.hdr :: p.1.seq :: p.1.sep :: p.1.qual :: t1,
                        p.2.hdr :: p.2.seq :: p.2.sep :: p.2.qual :: t2])
    (hl : st.lineNum % 4 = 0) (hw1 : hasAtSigil p.1.hdr = true)
    (hw2 : hasAtSigil p.2.hdr = true)
    (hname : check = true → readIdent p.2.hdr = readIdent p.1.hdr)
    (hnl : limit = 0 ∨ st.readCount + 1 < limit) :
    runLoop limit check czip (fuel + 4) st =
      runLoop limit check czip fuel
        { streams := [t1, t2], lineNum := st.lineNum + 4,
          readCount := st.readCount + 1, readName := readIdent p.1.hdr,
          buf := p.1.seq ++ ['\n'] ++ p.2.seq ++ ['\n'], zw := true,
          rows := st.rows ++ [expectedRow2 czip p] } := by
  have h1 : (st.lineNum + 1) % 4 = 1 := by omega
  have h2 : (st.lineNum + 2) % 4 = 2 := by omega
  have h3 : (st.lineNum + 3) % 4 = 3 := by omega
  have hc0 : ¬(0 < limit ∧ limit ≤ st.readCount) := by omega
  have hc1 : ¬(0 < limit ∧ limit ≤ st.readCount + 1) := by omega
  cases check with
  | false =>
    simp [runLoop, scanAll, procLine, expectedRow2, hs, hl, h1, h2, h3, hw1, hw2,
      hc0, hc1]
  | true =>
    simp [runLoop, scanAll, procLine, expectedRow2, hs, hl, h1, h2, h3, hw1, hw2,
      hc0, hc1, hname rfl]

/-- With no limit, the loop runs any list of well-formed single-stream
records to completion, emitting exactly their rows, and then continues on
whatever lines remain. -/
lemma cycles1 (check : Bool) (czip : List Char → Nat) (rs : List Rec4) :
    ∀ (fuel : Nat) (st : RunState) (tail : List (List Char)),
      st.streams = [stream1Lines rs ++ tail] → st.lineNum % 4 = 0 →
      (∀ r ∈ rs, hasAtSigil r.hdr = true) →
      ∃ rn b z, runLoop 0 check czip (4 * rs.length + fuel) st =
        runLoop 0 check czip fuel
          { streams := [tail], lineNum := st.lineNum + 4 * rs.length,
            readCount := st.readCount + rs.length, readName := rn, buf := b,
            zw := z, rows := st.rows ++ rs.map (expectedRow1 czip) } := by
  induction rs with
  | nil =>
    intro fuel st tail hs hl hw
    refine ⟨st.readName, st.buf, st.zw, ?_⟩
    obtain ⟨streams, lineNum, readCount, readName, buf, zw, rows⟩ := st
    simp only [stream1Lines, List.nil_append] at hs
    simp [hs]
  | cons r rest ih =>
    intro fuel st tail hs hl hw
    have hstep := cycle1 0 check czip (4 * rest.length + fuel) st r
      (stream1Lines rest ++ tail) (by rw [hs]; simp [stream1Lines]) hl
      (hw r (List.mem_cons_self r rest)) (Or.inl rfl)
    obtain ⟨rn, b, z, hrest⟩ := ih fuel
      { streams := [stream1Lines rest ++ tail], lineNum := st.lineNum + 4,
        readCount := st.readCount + 1, readName := readIdent r.hdr,
        buf := r.seq ++ ['\n'], zw := true, rows := st.rows ++ [expectedRow1 czip r] }
      tail rfl (by simp only []; omega)
      (fun x hx => hw x (List.mem_cons_of_mem r hx))
    refine ⟨rn, b, z, ?_⟩
    have hfuel : 4 * (r :: rest).length + fuel = (4 * rest.length + fuel) + 4 := by
      simp [List.length_cons]; ring
    rw [hfuel, hstep, hrest]
    refine congrArg _ ?_
    simp only [RunState.mk.injEq, List.length_cons, List.map_cons, List.append_assoc,
      List.singleton_append, and_true, true_and]
    omega

/-- With no limit, the loop runs any list of well-formed, identity-consistent
record pairs on two streams to completion, emitting exactly their rows, and
then continues on whatever lines remain in each stream. -/
lemma cycles2 (check : Bool) (czip : List Char → Nat) (ps : List (Rec4 × Rec4)) :
    ∀ (fuel : Nat) (st : RunState) (t1 t2 : List (List Char)),
      st.streams = [streamFst ps ++ t1, streamSnd ps ++ t2] → st.lineNum % 4 = 0 →
      (∀ p ∈ ps, hasAtSigil p.1.hdr = true) →
      (∀ p ∈ ps, hasAtSigil p.2.hdr = true) →
      (check = true → ∀ p ∈ ps, readIdent p.2.hdr = readIdent p.1.hdr) →
      ∃ rn b z, runLoop 0 check czip (4 * ps.length + fuel) st =
        runLoop 0 check czip fuel
          { streams := [t1, t2], lineNum := st.lineNum + 4 * ps.length,
            readCount := st.readCount + ps.length, readName := rn, buf := b,
            zw := z, rows := st.rows ++ ps.map (expectedRow2 czip) } := by
  induction ps with
  | nil =>
    intro fuel st t1 t2 hs hl hw1 hw2 hname
    refine ⟨st.readName, st.buf, st.zw, ?_⟩
    obtain ⟨streams, lineNum, readCount, readName, buf, zw, rows⟩ := st
    simp only [streamFst, streamSnd, List.nil_append] at hs
    simp [hs]
  | cons p rest ih =>
    intro fuel st t1 t2 hs hl hw1 hw2 hname
    have hstep := cycle2 0 check czip (4 * rest.length + fuel) st p
      (streamFst rest ++ t1) (streamSnd rest ++ t2)
      (by rw [hs]; simp [streamFst, streamSnd]) hl
      (hw1 p (List.mem_cons_self p rest)) (hw2 p (List.mem_cons_self p rest))
      (fun hch => hname hch p (List.mem_cons_self p rest)) (Or.inl rfl)
    obtain ⟨rn, b, z, hrest⟩ := ih fuel
      { streams := [streamFst rest ++ t1, streamSnd rest ++ t2],
        lineNum := st.lineNum + 4, readCount := st.readCount + 1,
        readName := readIdent p.1.hdr, buf := p.1.seq ++ ['\n'] ++ p.2.seq ++ ['\n'],
        zw := true, rows := st.rows ++ [expectedRow2 czip p] }
      t1 t2 rfl (by simp only []; omega)
      (fun x hx => hw1 x (List.mem_cons_of_mem p hx))
      (fun x hx => hw2 x (List.mem_cons_of_mem p hx))
      (fun hch x hx => hname hch x (List.mem_cons_of_mem p hx))
    refine ⟨rn, b, z, ?_⟩
    have hfuel : 4 * (p :: rest).length + fuel = (4 * rest.length + fuel) + 4 := by
      simp [List.length_cons]; ring
    rw [hfuel, hstep, hrest]
    refine congrArg _ ?_
    simp only [RunState.mk.injEq, List.length_cons, List.map_cons, List.append_assoc,
      List.singleton_append, and_true, true_and]
    omega

/-! ### Invariants of the loop, by fuel induction -/

/-- Every row the loop ever emits has a compressed length of the form
`czip b`; with a compressor whose container is never empty, every emitted
row's compressed length is strictly positive, whatever the input. -/
lemma runLoop_rows_pos (limit : Nat) (check : Bool) (czip : List Char → Nat)
    (hpos : ∀ s, 0 < czip s) :
    ∀ (fuel : Nat) (st : RunState),
      (∀ r ∈ st.rows, 0 < r.compressedLen) →
      ∀ r ∈ (runLoop limit check czip fuel st).2.rows, 0 < r.compressedLen := by
  intro fuel
  induction fuel with
  | zero =>
    intro st h
    simpa [runLoop] using h
  | succ n ih =>
    intro st h
    by_cases hc : 0 < limit ∧ limit ≤ st.readCount
    · simpa [runLoop, hc] using h
    · rcases hsc : scanAll check st.lineNum 0 st.streams st.readName st.buf st.zw 0 with
        ⟨streams', rn, b', z', f⟩ | o
      · by_cases hl : st.lineNum % 4 = 1
        · cases z' with
          | false => simpa [runLoop, hc, hsc, hl] using h
          | true =>
            have hrows : ∀ r ∈ st.rows ++ [(⟨rn, f, czip b'⟩ : Row)],
                0 < r.compressedLen := by
              intro r hr
              rcases List.mem_append.mp hr with h1 | h1
              · exact h r h1
              · rw [List.mem_singleton.mp h1]
                exact hpos b'
            have hrec := ih
              { streams := streams', lineNum := st.lineNum + 1,
                readCount := st.readCount + 1, readName := rn, buf := b', zw := true,
                rows := st.rows ++ [⟨rn, f, czip b'⟩] } hrows
            simpa [runLoop, hc, hsc, hl] using hrec
        · have hrec := ih
            { streams := streams', lineNum := st.lineNum + 1,
              readCount := st.readCount, readName := rn, buf := b', zw := z',
              rows := st.rows } h
          simpa [runLoop, hc, hsc, hl] using hrec
      · simpa [runLoop, hc, hsc] using h

/-- With a positive limit, the loop never lets the number of emitted rows
exceed the limit, whatever the input. -/
lemma runLoop_rows_bound (limit : Nat) (check : Bool) (czip : List Char → Nat)
    (hlim : 0 < limit) :
    ∀ (fuel : Nat) (st : RunState), st.rows.length = st.readCount →
      st.readCount ≤ limit →
      (runLoop limit check czip fuel st).2.rows.length ≤ limit := by
  intro fuel
  induction fuel with
  | zero =>
    intro st h hb
    simpa [runLoop, h] using hb
  | succ n ih =>
    intro st h hb
    by_cases hc : 0 < limit ∧ limit ≤ st.readCount
    · simp [runLoop, hc, h]
      omega
    · rcases hsc : scanAll check st.lineNum 0 st.streams st.readName st.buf st.zw 0 with
        ⟨streams', rn, b', z', f⟩ | o
      · by_cases hl : st.lineNum % 4 = 1
        · cases z' with
          | false =>
            simp [runLoop, hc, hsc, hl, h]
            omega
          | true =>
            have hrec := ih
              { streams := streams', lineNum := st.lineNum + 1,
                readCount := st.readCount + 1, readName := rn, buf := b', zw := true,
                rows := st.rows ++ [⟨rn, f, czip b'⟩] }
              (by simp [h]) (by show st.readCount + 1 ≤ limit; omega)
            simpa [runLoop, hc, hsc, hl] using hrec
        · have hrec := ih
            { streams := streams', lineNum := st.lineNum + 1,
              readCount := st.readCount, readName := rn, buf := b', zw := z',
              rows := st.rows } h hb
          simpa [runLoop, hc, hsc, hl] using hrec
      · simp [runLoop, hc, hsc, h]
        omega

/-- Reaching the limit: when the next record is the limit-th one, the loop
consumes its header and sequence lines, emits the row, and then stops at
the top of the following iteration with `done`. -/
lemma cycle1_last (limit : Nat) (check : Bool) (czip : List Char → Nat) (fuel : Nat)
    (st : RunState) (hdr sq : List Char) (t : List (List Char))
    (hs : st.streams = [hdr :: sq :: t]) (hl : st.lineNum % 4 = 0)
    (hw : hasAtSigil hdr = true) (hrc : st.readCount + 1 = limit) :
    runLoop limit check czip (fuel + 3) st =
      (.done,
        { streams := [t], lineNum := st.lineNum + 1 + 1, readCount := limit,
          readName := readIdent hdr, buf := sq ++ ['\n'], zw := true,
          rows := st.rows ++ [⟨readIdent hdr, sq.length, czip (sq ++ ['\n'])⟩] }) := by
  have h1 : (st.lineNum + 1) % 4 = 1 := by omega
  have hposl : 0 < limit := by omega
  have hgt : ¬ limit ≤ st.readCount := by omega
  have hle1 : limit ≤ st.readCount + 1 := by omega
  simp [runLoop, scanAll, procLine, hs, hl, h1, hw, hposl, hgt, hle1, hrc]

/-- A positive limit that the input can meet: the loop emits exactly the
first `limit - readCount` records' rows and stops with `done`. -/
lemma master1_limited (limit : Nat) (check : Bool) (czip : List Char → Nat) :
    ∀ (rs : List Rec4) (st : RunState) (fuel : Nat),
      st.streams = [stream1Lines rs] → st.lineNum % 4 = 0 →
      (∀ r ∈ rs, hasAtSigil r.hdr = true) →
      st.readCount < limit → limit ≤ st.readCount + rs.length →
      (runLoop limit check czip (4 * rs.length + fuel + 3) st).1 = .done ∧
      (runLoop limit check czip (4 * rs.length + fuel + 3) st).2.rows =
        st.rows ++ ((rs.take (limit - st.readCount)).map (expectedRow1 czip)) := by
  intro rs
  induction rs with
  | nil =>
    intro st fuel hs hl hw hlt hle
    simp only [List.length_nil, Nat.add_zero] at hle
    omega
  | cons r rest ih =>
    intro st fuel hs hl hw hlt hle
    by_cases hlast : st.readCount + 1 = limit
    · have hstep := cycle1_last limit check czip (4 * rest.length + fuel + 4) st r.hdr
        r.seq (r.sep :: r.qual :: stream1Lines rest)
        (by rw [hs]; simp [stream1Lines]) hl (hw r (List.mem_cons_self r rest)) hlast
      have hfuel : 4 * (r :: rest).length + fuel + 3 =
          (4 * rest.length + fuel + 4) + 3 := by
        simp [List.length_cons]; ring
      rw [hfuel, hstep]
      have htake : limit - st.readCount = 1 := by omega
      simp [htake, expectedRow1]
    · have hstep := cycle1 limit check czip (4 * rest.length + fuel + 3) st r
        (stream1Lines rest) (by rw [hs]; simp [stream1Lines]) hl
        (hw r (List.mem_cons_self r rest)) (by omega)
      have hfuel : 4 * (r :: rest).length + fuel + 3 =
          (4 * rest.length + fuel + 3) + 4 := by
        simp [List.length_cons]; ring
      have hrec := ih
        { streams := [stream1Lines rest], lineNum := st.lineNum + 4,
          readCount := st.readCount + 1, readName := readIdent r.hdr,
          buf := r.seq ++ ['\n'], zw := true, rows := st.rows ++ [expectedRow1 czip r] }
        fuel rfl (by show (st.lineNum + 4) % 4 = 0; omega)
        (fun x hx => hw x (List.mem_cons_of_mem r hx))
        (by show st.readCount + 1 < limit; omega)
        (by show limit ≤ st.readCount + 1 + rest.length
            simp only [List.length_cons] at hle; omega)
      rw [hfuel, hstep]
      refine ⟨hrec.1, ?_⟩
      rw [hrec.2]
      have htake : limit - st.readCount = (limit - (st.readCount + 1)) + 1 := by omega
      simp only [htake, List.take_succ_cons, List.map_cons, List.append_assoc,
        List.singleton_append]

/-! ### Properties of the output formatting -/

lemma pad4_length (x : Nat) : (pad4 x).length = 4 := rfl

lemma digitChar_isDigit (n : Nat) : (digitChar n).isDigit = true := by
  unfold digitChar
  have h : n % 10 < 10 := Nat.mod_lt _ (by norm_num)
  generalize n % 10 = m at *
  interval_cases m <;> decide

lemma pad4_digits (x : Nat) : ∀ c ∈ (pad4 x).data, c.isDigit = true := by
  intro c hc
  have hd : (pad4 x).data =
      [digitChar (x / 1000), digitChar (x / 100), digitChar (x / 10), digitChar x] := rfl
  rw [hd] at hc
  simp only [List.mem_cons, List.not_mem_nil, or_false] at hc
  rcases hc with h | h | h | h <;> (rw [h]; exact digitChar_isDigit _)

/-- The rounded scaled ratio is within half a unit (in the last place) of
the exact rational `num / den`: `|num/den - d| ≤ 1/2`, cleared of
denominators. -/
lemma roundHalfEven_close (num den : Nat) (hden : 0 < den) :
    2 * num ≤ (2 * roundHalfEven num den + 1) * den ∧
    2 * (roundHalfEven num den) * den ≤ 2 * num + den := by
  obtain ⟨q, r, hqr, hrlt, hq, hr⟩ :
      ∃ q r, num = den * q + r ∧ r < den ∧ num / den = q ∧ num % den = r :=
    ⟨num / den, num % den, (Nat.div_add_mod num den).symm, Nat.mod_lt _ hden, rfl, rfl⟩
  unfold roundHalfEven
  rw [hq, hr]
  subst hqr
  split_ifs with h1 h2 h3 <;> constructor <;> nlinarith [hrlt]

/-- With a nonzero compressed length the ratio column is the rounded scaled
rational rendered as integer part, a dot, and four fractional digits. -/
lemma formatRatio_pos (raw clen : Nat) (h : 0 < clen) :
    formatRatio raw clen =
      toString (roundHalfEven (raw * 10000) clen / 10000) ++ "." ++
        pad4 (roundHalfEven (raw * 10000) clen % 10000) := by
  have : ¬ clen = 0 := by omega
  simp [formatRatio, this]

lemma zlibModelSize_pos (s : List Char) : 0 < zlibModelSize s := by
  unfold zlibModelSize zlibHeaderLen deflateModelLen zlibChecksumLen
  omega

/-! ### Whole-run lemmas for well-formed inputs -/

/-- A single-stream input of well-formed records runs to `done` and emits
exactly one row per record. -/
lemma run1_wf (check : Bool) (czip : List Char → Nat) (rs : List Rec4)
    (hw : ∀ r ∈ rs, hasAtSigil r.hdr = true) :
    (run 0 check czip [stream1Lines rs]).1 = .done ∧
    (run 0 check czip [stream1Lines rs]).2.rows = rs.map (expectedRow1 czip) := by
  have hf : fuelFor [stream1Lines rs] = 4 * rs.length + (12 * rs.length + 8) := by
    simp [fuelFor, stream1Lines_length]
    omega
  obtain ⟨rn, b, z, hrun⟩ := cycles1 check czip rs (12 * rs.length + 8)
    { streams := [stream1Lines rs], lineNum := 0, readCount := 0, readName := [],
      buf := [], zw := false, rows := [] } []
    (by simp) rfl hw
  have h8 : 12 * rs.length + 8 = (12 * rs.length + 7) + 1 := by omega
  rw [run, hf, hrun, h8]
  simp [runLoop, scanAll]

/-- A two-stream input of well-formed record pairs (identities consistent
when checking is on) runs to `done` and emits exactly one row per pair. -/
lemma run2_wf (check : Bool) (czip : List Char → Nat) (ps : List (Rec4 × Rec4))
    (hw1 : ∀ p ∈ ps, hasAtSigil p.1.hdr = true)
    (hw2 : ∀ p ∈ ps, hasAtSigil p.2.hdr = true)
    (hname : check = true → ∀ p ∈ ps, readIdent p.2.hdr = readIdent p.1.hdr) :
    (run 0 check czip [streamFst ps, streamSnd ps]).1 = .done ∧
    (run 0 check czip [streamFst ps, streamSnd ps]).2.rows =
      ps.map (expectedRow2 czip) := by
  have hf : fuelFor [streamFst ps, streamSnd ps] =
      4 * ps.length + (12 * ps.length + 8) := by
    simp [fuelFor, streamFst_length]
    omega
  obtain ⟨rn, b, z, hrun⟩ := cycles2 check czip ps (12 * ps.length + 8)
    { streams := [streamFst ps, streamSnd ps], lineNum := 0, readCount := 0,
      readName := [], buf := [], zw := false, rows := [] } [] []
    (by simp) rfl hw1 hw2 hname
  have h8 : 12 * ps.length + 8 = (12 * ps.length + 7) + 1 := by omega
  rw [run, hf, hrun, h8]
  simp [runLoop, scanAll]

/-! ## The claims -/

/-- Claim C1 is false on the code: the offset-1 (sequence) branch of `main`
has no `i == 0` guard, so the second stream's sequence line is added to
`full_len` and written into the compressor too.  On a pair whose primary
sequence is `AAAA` (length 4) and secondary sequence `CCGGTT` (length 6),
the emitted row carries raw length 10 — not 4 — and a compressed size
measuring both lines (12 payload bytes plus framing = 23), not that of
`AAAA` plus its terminator alone (16). -/
theorem C1_counterexample :
    (run 0 false zlibModelSize
        [["@r1 x".data, "AAAA".data, "+".data, "IIII".data],
         ["@r1 x".data, "CCGGTT".data, "+".data, "IIIIII".data]]).2.rows =
      [⟨"r1".data, 10, 23⟩] ∧
    (10 : Nat) ≠ ("AAAA".data).length ∧
    (23 : Nat) ≠ zlibModelSize ("AAAA".data ++ ['\n']) := by
  refine ⟨by decide, by decide, by decide⟩

/-- Claim C1, amended: in the two-stream case BOTH streams' sequence lines
contribute to the read — the row's raw length is the sum of the two
sequence-line lengths and the compressor receives both lines (each with its
terminator) in stream order; the run succeeds and emits one row per
record pair. -/
theorem C1_amended_both_sequences_contribute (check : Bool)
    (czip : List Char → Nat) (ps : List (Rec4 × Rec4))
    (hw1 : ∀ p ∈ ps, hasAtSigil p.1.hdr = true)
    (hw2 : ∀ p ∈ ps, hasAtSigil p.2.hdr = true)
    (hname : check = true → ∀ p ∈ ps, readIdent p.2.hdr = readIdent p.1.hdr) :
    (run 0 check czip [streamFst ps, streamSnd ps]).1 = .done ∧
    (run 0 check czip [streamFst ps, streamSnd ps]).2.rows =
      ps.map (fun p => ⟨readIdent p.1.hdr, p.1.seq.length + p.2.seq.length,
        czip (p.1.seq ++ ['\n'] ++ p.2.seq ++ ['\n'])⟩) := by
  have h := run2_wf check czip ps hw1 hw2 hname
  refine ⟨h.1, ?_⟩
  rw [h.2]
  simp [expectedRow2]

/-- Witness for `C1_amended_both_sequences_contribute` at a concrete
checked pair. -/
theorem C1_amended_both_sequences_contribute_witness :
    (run 0 true zlibModelSize
        [streamFst [(⟨"@a 1".data, "AC".data, "+".data, "II".data⟩,
                     ⟨"@a 2".data, "GGT".data, "+".data, "III".data⟩)],
         streamSnd [(⟨"@a 1".data, "AC".data, "+".data, "II".data⟩,
                     ⟨"@a 2".data, "GGT".data, "+".data, "III".data⟩)]]).1 = .done ∧
    (run 0 true zlibModelSize
        [streamFst [(⟨"@a 1".data, "AC".data, "+".data, "II".data⟩,
                     ⟨"@a 2".data, "GGT".data, "+".data, "III".data⟩)],
         streamSnd [(⟨"@a 1".data, "AC".data, "+".data, "II".data⟩,
                     ⟨"@a 2".data, "GGT".data, "+".data, "III".data⟩)]]).2.rows =
      ([(⟨"@a 1".data, "AC".data, "+".data, "II".data⟩,
         ⟨"@a 2".data, "GGT".data, "+".data, "III".data⟩)] : List (Rec4 × Rec4)).map
        (fun p => ⟨readIdent p.1.hdr, p.1.seq.length + p.2.seq.length,
          zlibModelSize (p.1.seq ++ ['\n'] ++ p.2.seq ++ ['\n'])⟩) :=
  C1_amended_both_sequences_contribute true zlibModelSize _
    (by decide) (by decide) (by decide)

/-- Claim C2 is false on the code: the row is emitted when the offset-1
(sequence) line completes, not the offset-3 (quality) line.  A one-record
stream truncated right after its sequence line still produces a row, and
the run even ends `done`. -/
theorem C2_counterexample :
    (run 0 false zlibModelSize [["@r1".data, "ACGT".data]]).2.rows =
      [⟨"r1".data, 4, 16⟩] ∧
    (run 0 false zlibModelSize [["@r1".data, "ACGT".data]]).1 = .done := by
  refine ⟨by decide, by decide⟩

/-- Claim C2, amended: a row is emitted as soon as every stream has
produced the header and sequence lines of the cycle (finalization happens
at cycle offset 1); the separator and quality lines are consumed
afterwards without affecting the row.  Hence a stream ending right after a
final header-plus-sequence fragment still yields a row for that fragment,
while a stream ending right after a final lone header yields none. -/
theorem C2_amended_row_emitted_after_sequence_line (check : Bool)
    (czip : List Char → Nat) (rs : List Rec4) (hdr sq : List Char)
    (hw : ∀ r ∈ rs, hasAtSigil r.hdr = true) (hh : hasAtSigil hdr = true) :
    ((run 0 check czip [stream1Lines rs ++ [hdr, sq]]).1 = .done ∧
     (run 0 check czip [stream1Lines rs ++ [hdr, sq]]).2.rows =
       rs.map (expectedRow1 czip) ++
         [⟨readIdent hdr, sq.length, czip (sq ++ ['\n'])⟩]) ∧
    ((run 0 check czip [stream1Lines rs ++ [hdr]]).1 = .done ∧
     (run 0 check czip [stream1Lines rs ++ [hdr]]).2.rows =
       rs.map (expectedRow1 czip)) := by
  constructor
  · have hf : fuelFor [stream1Lines rs ++ [hdr, sq]] =
        4 * rs.length + (12 * rs.length + 16) := by
      simp [fuelFor, stream1Lines_length]
      omega
    obtain ⟨rn, b, z, hrun⟩ := cycles1 check czip rs (12 * rs.length + 16)
      { streams := [stream1Lines rs ++ [hdr, sq]], lineNum := 0, readCount := 0,
        readName := [], buf := [], zw := false, rows := [] } [hdr, sq] rfl rfl hw
    have e0 : (0 + 4 * rs.length) % 4 = 0 := by omega
    have e1 : (0 + 4 * rs.length + 1) % 4 = 1 := by omega
    rw [run, hf, hrun]
    have h16 : 12 * rs.length + 16 = (12 * rs.length + 15) + 1 := by omega
    rw [h16, step1_hdr 0 check czip (12 * rs.length + 15) _ hdr [sq] rfl e0 hh
      (Or.inl rfl)]
    have h15 : 12 * rs.length + 15 = (12 * rs.length + 14) + 1 := by omega
    rw [h15, step1_seq 0 check czip (12 * rs.length + 14) _ sq [] rfl e1 rfl
      (Or.inl rfl)]
    have h14 : 12 * rs.length + 14 = (12 * rs.length + 13) + 1 := by omega
    rw [h14, step_done 0 check czip (12 * rs.length + 13) _ [] rfl]
    simp
  · have hf : fuelFor [stream1Lines rs ++ [hdr]] =
        4 * rs.length + (12 * rs.length + 12) := by
      simp [fuelFor, stream1Lines_length]
      omega
    obtain ⟨rn, b, z, hrun⟩ := cycles1 check czip rs (12 * rs.length + 12)
      { streams := [stream1Lines rs ++ [hdr]], lineNum := 0, readCount := 0,
        readName := [], buf := [], zw := false, rows := [] } [hdr] rfl rfl hw
    have e0 : (0 + 4 * rs.length) % 4 = 0 := by omega
    rw [run, hf, hrun]
    have h12 : 12 * rs.length + 12 = (12 * rs.length + 11) + 1 := by omega
    rw [h12, step1_hdr 0 check czip (12 * rs.length + 11) _ hdr [] rfl e0 hh
      (Or.inl rfl)]
    have h11 : 12 * rs.length + 11 = (12 * rs.length + 10) + 1 := by omega
    rw [h11, step_done 0 check czip (12 * rs.length + 10) _ [] rfl]
    simp

/-- Witness for `C2_amended_row_emitted_after_sequence_line` at a concrete
one-record stream plus a truncated final fragment. -/
theorem C2_amended_row_emitted_after_sequence_line_witness :
    ((run 0 false zlibModelSize
        [stream1Lines [⟨"@a".data, "T".data, "+".data, "I".data⟩] ++
          ["@x y".data, "TTA".data]]).1 = .done ∧
     (run 0 false zlibModelSize
        [stream1Lines [⟨"@a".data, "T".data, "+".data, "I".data⟩] ++
          ["@x y".data, "TTA".data]]).2.rows =
       [⟨"@a".data, "T".data, "+".data, "I".data⟩].map (expectedRow1 zlibModelSize) ++
         [⟨readIdent "@x y".data, ("TTA".data).length,
           zlibModelSize ("TTA".data ++ ['\n'])⟩]) ∧
    ((run 0 false zlibModelSize
        [stream1Lines [⟨"@a".data, "T".data, "+".data, "I".data⟩] ++
          ["@x y".data]]).1 = .done ∧
     (run 0 false zlibModelSize
        [stream1Lines [⟨"@a".data, "T".data, "+".data, "I".data⟩] ++
          ["@x y".data]]).2.rows =
       [⟨"@a".data, "T".data, "+".data, "I".data⟩].map (expectedRow1 zlibModelSize)) :=
  C2_amended_row_emitted_after_sequence_line false zlibModelSize _ _ _
    (by decide) (by decide)

/-- Claim C3 is false on the code when the shorter stream is the primary
one: with stream 0 holding one complete record and stream 1 holding two,
the run ends `done` (no Desync, no failure of any kind) as soon as stream 0
is exhausted, silently ignoring stream 1's remaining record. -/
theorem C3_counterexample :
    (run 0 false zlibModelSize
        [["@a".data, "AC".data, "+".data, "II".data],
         ["@a".data, "TT".data, "+".data, "II".data,
          "@b".data, "GG".data, "+".data, "II".data]]).1 = .done ∧
    ∀ e : RunError,
      (run 0 false zlibModelSize
          [["@a".data, "AC".data, "+".data, "II".data],
           ["@a".data, "TT".data, "+".data, "II".data,
            "@b".data, "GG".data, "+".data, "II".data]]).1 ≠ .failed e := by
  have hd : (run 0 false zlibModelSize
      [["@a".data, "AC".data, "+".data, "II".data],
       ["@a".data, "TT".data, "+".data, "II".data,
        "@b".data, "GG".data, "+".data, "II".data]]).1 = .done := by decide
  refine ⟨hd, fun e h => ?_⟩
  rw [hd] at h
  exact Outcome.noConfusion h

/-- Claim C3, amended: the Desync failure is asymmetric.  If a secondary
stream runs out while the primary still has a (valid) header line, the run
fails with `Desync` on stream 1 after emitting the rows of the complete
pairs; if instead the primary stream runs out first, the run ends `done`,
ignoring whatever the secondary still holds. -/
theorem C3_amended_desync_only_for_shorter_secondary (check : Bool)
    (czip : List Char → Nat) (ps : List (Rec4 × Rec4)) (hdr : List Char)
    (t0 : List (List Char)) (extra : List (List Char))
    (hw1 : ∀ p ∈ ps, hasAtSigil p.1.hdr = true)
    (hw2 : ∀ p ∈ ps, hasAtSigil p.2.hdr = true)
    (hname : check = true → ∀ p ∈ ps, readIdent p.2.hdr = readIdent p.1.hdr)
    (hh : hasAtSigil hdr = true) :
    ((run 0 check czip [streamFst ps ++ hdr :: t0, streamSnd ps]).1 =
        .failed (.desync 1) ∧
     (run 0 check czip [streamFst ps ++ hdr :: t0, streamSnd ps]).2.rows =
        ps.map (expectedRow2 czip)) ∧
    ((run 0 check czip [streamFst ps, streamSnd ps ++ extra]).1 = .done ∧
     (run 0 check czip [streamFst ps, streamSnd ps ++ extra]).2.rows =
        ps.map (expectedRow2 czip)) := by
  constructor
  · have hf : fuelFor [streamFst ps ++ hdr :: t0, streamSnd ps] =
        4 * ps.length + (12 * ps.length + 4 * t0.length + 12) := by
      simp [fuelFor, streamFst_length]
      omega
    obtain ⟨rn, b, z, hrun⟩ := cycles2 check czip ps
      (12 * ps.length + 4 * t0.length + 12)
      { streams := [streamFst ps ++ hdr :: t0, streamSnd ps], lineNum := 0,
        readCount := 0, readName := [], buf := [], zw := false, rows := [] }
      (hdr :: t0) [] (by simp) rfl hw1 hw2 hname
    have e0 : (0 + 4 * ps.length) % 4 = 0 := by omega
    rw [run, hf, hrun]
    simp [runLoop, scanAll, procLine, hh, e0]
  · have hf : fuelFor [streamFst ps, streamSnd ps ++ extra] =
        4 * ps.length + (12 * ps.length + 8) := by
      simp [fuelFor, streamFst_length]
      omega
    obtain ⟨rn, b, z, hrun⟩ := cycles2 check czip ps (12 * ps.length + 8)
      { streams := [streamFst ps, streamSnd ps ++ extra], lineNum := 0,
        readCount := 0, readName := [], buf := [], zw := false, rows := [] }
      [] extra (by simp) rfl hw1 hw2 hname
    rw [run, hf, hrun]
    simp [runLoop, scanAll]

/-- Witness for `C3_amended_desync_only_for_shorter_secondary` at one
complete pair followed by an extra primary record (Desync side) and an
extra secondary line (done side). -/
theorem C3_amended_desync_only_for_shorter_secondary_witness :
    ((run 0 false zlibModelSize
        [streamFst [(⟨"@p".data, "AA".data, "+".data, "II".data⟩,
                     ⟨"@p".data, "CC".data, "+".data, "II".data⟩)] ++
           "@q".data :: ["GG".data],
         streamSnd [(⟨"@p".data, "AA".data, "+".data, "II".data⟩,
                     ⟨"@p".data, "CC".data, "+".data, "II".data⟩)]]).1 =
        .failed (.desync 1) ∧
     (run 0 false zlibModelSize
        [streamFst [(⟨"@p".data, "AA".data, "+".data, "II".data⟩,
                     ⟨"@p".data, "CC".data, "+".data, "II".data⟩)] ++
           "@q".data :: ["GG".data],
         streamSnd [(⟨"@p".data, "AA".data, "+".data, "II".data⟩,
                     ⟨"@p".data, "CC".data, "+".data, "II".data⟩)]]).2.rows =
        [(⟨"@p".data, "AA".data, "+".data, "II".data⟩,
          ⟨"@p".data, "CC".data, "+".data, "II".data⟩)].map
          (expectedRow2 zlibModelSize)) ∧
    ((run 0 false zlibModelSize
        [streamFst [(⟨"@p".data, "AA".data, "+".data, "II".data⟩,
                     ⟨"@p".data, "CC".data, "+".data, "II".data⟩)],
         streamSnd [(⟨"@p".data, "AA".data, "+".data, "II".data⟩,
                     ⟨"@p".data, "CC".data, "+".data, "II".data⟩)] ++
           ["@r".data]]).1 = .done ∧
     (run 0 false zlibModelSize
        [streamFst [(⟨"@p".data, "AA".data, "+".data, "II".data⟩,
                     ⟨"@p".data, "CC".data, "+".data, "II".data⟩)],
         streamSnd [(⟨"@p".data, "AA".data, "+".data, "II".data⟩,
                     ⟨"@p".data, "CC".data, "+".data, "II".data⟩)] ++
           ["@r".data]]).2.rows =
        [(⟨"@p".data, "AA".data, "+".data, "II".data⟩,
          ⟨"@p".data, "CC".data, "+".data, "II".data⟩)].map
          (expectedRow2 zlibModelSize)) :=
  C3_amended_desync_only_for_shorter_secondary false zlibModelSize _ _ _ _
    (by decide) (by decide) (by decide) (by decide)

/-- Claim C4's limit-0 clause is false on the code: on a single stream with
one complete 4-line cycle followed by a dangling header-plus-sequence
fragment (6 lines, so one complete cycle), two rows are emitted — the
fragment gets a row too, because emission happens at the sequence line. -/
theorem C4_counterexample :
    (run 0 false zlibModelSize
        [["@a".data, "AC".data, "+".data, "II".data,
          "@b".data, "GG".data]]).2.rows.length = 2 ∧
    ["@a".data, "AC".data, "+".data, "II".data, "@b".data, "GG".data].length / 4 = 1 ∧
    (2 : Nat) ≠ 1 := by
  refine ⟨by decide, by decide, by decide⟩

/-- Claim C4, amended: with a positive limit N, at most N rows are emitted
on any input whatsoever; on an input of at least N well-formed records the
run emits exactly the first N rows and ends `done`; and with limit 0 on an
input consisting exactly of well-formed complete 4-line cycles, the row
count equals the cycle count (a trailing header-plus-sequence fragment
would add one more row, per `C4_counterexample`). -/
theorem C4_amended_limit_bound_and_exact_counts (limit : Nat) (check : Bool)
    (czip : List Char → Nat) (streams : List (List (List Char)))
    (rs rt : List Rec4) (hpos : 0 < limit)
    (hw : ∀ r ∈ rs, hasAtSigil r.hdr = true)
    (hw' : ∀ r ∈ rt, hasAtSigil r.hdr = true)
    (hlen : limit ≤ rs.length) :
    (run limit check czip streams).2.rows.length ≤ limit ∧
    ((run limit check czip [stream1Lines rs]).1 = .done ∧
     (run limit check czip [stream1Lines rs]).2.rows =
       (rs.take limit).map (expectedRow1 czip)) ∧
    ((run 0 check czip [stream1Lines rt]).1 = .done ∧
     (run 0 check czip [stream1Lines rt]).2.rows = rt.map (expectedRow1 czip)) := by
  refine ⟨?_, ?_, run1_wf check czip rt hw'⟩
  · rw [run]
    exact runLoop_rows_bound limit check czip hpos _ _ rfl
      (by show (0 : Nat) ≤ limit; omega)
  · have hf : fuelFor [stream1Lines rs] =
        4 * rs.length + (12 * rs.length + 5) + 3 := by
      simp [fuelFor, stream1Lines_length]
      omega
    have hm := master1_limited limit check czip rs
      { streams := [stream1Lines rs], lineNum := 0, readCount := 0, readName := [],
        buf := [], zw := false, rows := [] } (12 * rs.length + 5) rfl rfl hw hpos
      (by show limit ≤ 0 + rs.length; omega)
    rw [run, hf]
    refine ⟨hm.1, ?_⟩
    rw [hm.2]
    simp

/-- Witness for `C4_amended_limit_bound_and_exact_counts`: limit 2 against
an arbitrary malformed input, against five complete reads (exactly 2 rows,
Done — the spec's own test case), and limit 0 against one complete read. -/
theorem C4_amended_limit_bound_and_exact_counts_witness :
    (run 2 false zlibModelSize [["junk".data]]).2.rows.length ≤ 2 ∧
    ((run 2 false zlibModelSize
        [stream1Lines
          [⟨"@r0".data, "AAAA".data, "+".data, "IIII".data⟩,
           ⟨"@r1".data, "CCCC".data, "+".data, "IIII".data⟩,
           ⟨"@r2".data, "GGGG".data, "+".data, "IIII".data⟩,
           ⟨"@r3".data, "TTTT".data, "+".data, "IIII".data⟩,
           ⟨"@r4".data, "ACGT".data, "+".data, "IIII".data⟩]]).1 = .done ∧
     (run 2 false zlibModelSize
        [stream1Lines
          [⟨"@r0".data, "AAAA".data, "+".data, "IIII".data⟩,
           ⟨"@r1".data, "CCCC".data, "+".data, "IIII".data⟩,
           ⟨"@r2".data, "GGGG".data, "+".data, "IIII".data⟩,
           ⟨"@r3".data, "TTTT".data, "+".data, "IIII".data⟩,
           ⟨"@r4".data, "ACGT".data, "+".data, "IIII".data⟩]]).2.rows =
       ([⟨"@r0".data, "AAAA".data, "+".data, "IIII".data⟩,
         ⟨"@r1".data, "CCCC".data, "+".data, "IIII".data⟩,
         ⟨"@r2".data, "GGGG".data, "+".data, "IIII".data⟩,
         ⟨"@r3".data, "TTTT".data, "+".data, "IIII".data⟩,
         ⟨"@r4".data, "ACGT".data, "+".data, "IIII".data⟩].take 2).map
         (expectedRow1 zlibModelSize)) ∧
    ((run 0 false zlibModelSize
        [stream1Lines [⟨"@s".data, "AC".data, "+".data, "II".data⟩]]).1 = .done ∧
     (run 0 false zlibModelSize
        [stream1Lines [⟨"@s".data, "AC".data, "+".data, "II".data⟩]]).2.rows =
       [⟨"@s".data, "AC".data, "+".data, "II".data⟩].map
         (expectedRow1 zlibModelSize)) :=
  C4_amended_limit_bound_and_exact_counts 2 false zlibModelSize [["junk".data]] _ _
    (by decide) (by decide) (by decide) (by decide)

/-- Claim C5: every emitted row formats as exactly the four tab-separated
fields name, raw length, compressed length and ratio, terminated by a
newline; the two lengths are exact decimal integers, the ratio renders with
exactly four decimal digits after the point, and the rendered value
`d / 10^4` is within half a last-place unit of the exact rational
`rawLen / compressedLen` (the `float64` division and `%0.4f` rounding of
the source are modelled as exact rational arithmetic rounded half to
even). -/
theorem C5_row_format (limit : Nat) (check : Bool)
    (streams : List (List (List Char))) (r : Row)
    (hr : r ∈ (run limit check zlibModelSize streams).2.rows) :
    ∃ d : Nat,
      d = roundHalfEven (r.rawLen * 10000) r.compressedLen ∧
      formatRow r = String.mk r.name ++ "\t" ++ toString r.rawLen ++ "\t"
          ++ toString r.compressedLen ++ "\t"
          ++ (toString (d / 10000) ++ "." ++ pad4 (d % 10000)) ++ "\n" ∧
      (pad4 (d % 10000)).length = 4 ∧
      (∀ c ∈ (pad4 (d % 10000)).data, c.isDigit = true) ∧
      2 * (r.rawLen * 10000) ≤ (2 * d + 1) * r.compressedLen ∧
      2 * d * r.compressedLen ≤ 2 * (r.rawLen * 10000) + r.compressedLen := by
  have hpos : 0 < r.compressedLen := by
    rw [run] at hr
    exact runLoop_rows_pos limit check zlibModelSize zlibModelSize_pos _ _
      (by simp) r hr
  refine ⟨roundHalfEven (r.rawLen * 10000) r.compressedLen, rfl, ?_, pad4_length _,
    pad4_digits _, (roundHalfEven_close _ _ hpos).1,
    (roundHalfEven_close _ _ hpos).2⟩
  simp only [formatRow]
  rw [formatRatio_pos _ _ hpos]

/-- Witness for `C5_row_format` at the row of a concrete one-read run
(raw length 4, compressed length 16, ratio 0.2500). -/
theorem C5_row_format_witness :
    ∃ d : Nat,
      d = roundHalfEven (4 * 10000) 16 ∧
      formatRow ⟨"r1".data, 4, 16⟩ = String.mk "r1".data ++ "\t" ++ toString 4
          ++ "\t" ++ toString 16 ++ "\t"
          ++ (toString (d / 10000) ++ "." ++ pad4 (d % 10000)) ++ "\n" ∧
      (pad4 (d % 10000)).length = 4 ∧
      (∀ c ∈ (pad4 (d % 10000)).data, c.isDigit = true) ∧
      2 * (4 * 10000) ≤ (2 * d + 1) * 16 ∧
      2 * d * 16 ≤ 2 * (4 * 10000) + 16 :=
  C5_row_format 0 false [["@r1".data, "ACGT".data, "+".data, "IIII".data]]
    ⟨"r1".data, 4, 16⟩ (by decide)

/-- Claim C6 is partly false on the code: the malformed-header error names
the line number and the offending content, but not the stream.  Two runs
whose bad header sits on different streams produce the literally identical
error (the `fmt.Errorf` call interpolates only `line_num` and `line`), so
the message cannot identify the stream on which the failure occurred. -/
theorem C6_counterexample :
    (run 0 false zlibModelSize
        [["@a b".data, "ACGT".data], ["nohdr".data, "TTTT".data]]).1 =
      .failed (.malformed 0 "nohdr".data) ∧
    (run 0 false zlibModelSize
        [["nohdr".data, "ACGT".data], ["@a b".data, "TTTT".data]]).1 =
      .failed (.malformed 0 "nohdr".data) ∧
    RunError.message (.malformed 0 "nohdr".data) =
      "Line 0 should be a fastq header line, got: nohdr\n" := by
  refine ⟨by decide, by decide, by decide⟩

/-- Claim C6, amended: a non-`@` line at cycle offset 0 fails the run with
a MalformedRecord error whose message names the exact line number and the
offending content (but not the stream); the rows emitted before the
failure stand and no further row is emitted. -/
theorem C6_amended_malformed_names_line_and_content (check : Bool)
    (czip : List Char → Nat) (rs : List Rec4) (bad : List Char)
    (t : List (List Char))
    (hw : ∀ r ∈ rs, hasAtSigil r.hdr = true) (hb : hasAtSigil bad = false) :
    (run 0 check czip [stream1Lines rs ++ bad :: t]).1 =
      .failed (.malformed (4 * rs.length) bad) ∧
    (run 0 check czip [stream1Lines rs ++ bad :: t]).2.rows =
      rs.map (expectedRow1 czip) ∧
    RunError.message (.malformed (4 * rs.length) bad) =
      "Line " ++ toString (4 * rs.length) ++ " should be a fastq header line, got: "
        ++ String.mk bad ++ "\n" := by
  have hf : fuelFor [stream1Lines rs ++ bad :: t] =
      4 * rs.length + (12 * rs.length + 4 * t.length + 12) := by
    simp [fuelFor, stream1Lines_length]
    omega
  obtain ⟨rn, b, z, hrun⟩ := cycles1 check czip rs
    (12 * rs.length + 4 * t.length + 12)
    { streams := [stream1Lines rs ++ bad :: t], lineNum := 0, readCount := 0,
      readName := [], buf := [], zw := false, rows := [] } (bad :: t) rfl rfl hw
  have e0 : (0 + 4 * rs.length) % 4 = 0 := by omega
  have h1 : 12 * rs.length + 4 * t.length + 12 =
      (12 * rs.length + 4 * t.length + 11) + 1 := by omega
  rw [run, hf, hrun, h1, step_malformed0 0 check czip
    (12 * rs.length + 4 * t.length + 11) _ bad t [] rfl e0 hb (Or.inl rfl)]
  refine ⟨by simp, by simp, rfl⟩

/-- Witness for `C6_amended_malformed_names_line_and_content` after one
complete record. -/
theorem C6_amended_malformed_names_line_and_content_witness :
    (run 0 false zlibModelSize
        [stream1Lines [⟨"@a".data, "T".data, "+".data, "I".data⟩] ++
          "oops".data :: []]).1 =
      .failed (.malformed
        (4 * [(⟨"@a".data, "T".data, "+".data, "I".data⟩ : Rec4)].length)
        "oops".data) ∧
    (run 0 false zlibModelSize
        [stream1Lines [⟨"@a".data, "T".data, "+".data, "I".data⟩] ++
          "oops".data :: []]).2.rows =
      [(⟨"@a".data, "T".data, "+".data, "I".data⟩ : Rec4)].map
        (expectedRow1 zlibModelSize) ∧
    RunError.message (.malformed
        (4 * [(⟨"@a".data, "T".data, "+".data, "I".data⟩ : Rec4)].length)
        "oops".data) =
      "Line " ++ toString
          (4 * [(⟨"@a".data, "T".data, "+".data, "I".data⟩ : Rec4)].length)
        ++ " should be a fastq header line, got: " ++ String.mk "oops".data
        ++ "\n" :=
  C6_amended_malformed_names_line_and_content false zlibModelSize _ _ _
    (by decide) (by decide)

/-- Claim C7: with checking on, matching identities in every cycle produce
no NameMismatch (the run succeeds); a differing secondary identity at the
first divergent cycle fails the run with a NameMismatch error citing both
identities, the line number of that cycle's header, and the (1-based)
input number 2 for stream index 1; with checking off, arbitrary identity
divergence never causes a failure. -/
theorem C7_name_checking (czip : List Char → Nat)
    (ps qs os : List (Rec4 × Rec4)) (h1 h2 : List Char)
    (t1 t2 : List (List Char))
    (hp1 : ∀ p ∈ ps, hasAtSigil p.1.hdr = true)
    (hp2 : ∀ p ∈ ps, hasAtSigil p.2.hdr = true)
    (hpm : ∀ p ∈ ps, readIdent p.2.hdr = readIdent p.1.hdr)
    (hq1 : ∀ p ∈ qs, hasAtSigil p.1.hdr = true)
    (hq2 : ∀ p ∈ qs, hasAtSigil p.2.hdr = true)
    (hqm : ∀ p ∈ qs, readIdent p.2.hdr = readIdent p.1.hdr)
    (ho1 : ∀ p ∈ os, hasAtSigil p.1.hdr = true)
    (ho2 : ∀ p ∈ os, hasAtSigil p.2.hdr = true)
    (hh1 : hasAtSigil h1 = true) (hh2 : hasAtSigil h2 = true)
    (hne : ¬ readIdent h2 = readIdent h1) :
    ((run 0 true czip [streamFst ps, streamSnd ps]).1 = .done ∧
     (run 0 true czip [streamFst ps, streamSnd ps]).2.rows =
       ps.map (expectedRow2 czip)) ∧
    ((run 0 true czip [streamFst qs ++ h1 :: t1, streamSnd qs ++ h2 :: t2]).1 =
       .failed (.nameMismatch (readIdent h1) (4 * qs.length) 2 (readIdent h2)) ∧
     (run 0 true czip [streamFst qs ++ h1 :: t1, streamSnd qs ++ h2 :: t2]).2.rows =
       qs.map (expectedRow2 czip) ∧
     RunError.message
         (.nameMismatch (readIdent h1) (4 * qs.length) 2 (readIdent h2)) =
       "expecting read " ++ String.mk (readIdent h1) ++ " on line "
         ++ toString (4 * qs.length) ++ " in input " ++ toString 2 ++ ", got "
         ++ String.mk (readIdent h2)) ∧
    ((run 0 false czip [streamFst os, streamSnd os]).1 = .done ∧
     (run 0 false czip [streamFst os, streamSnd os]).2.rows =
       os.map (expectedRow2 czip)) := by
  refine ⟨run2_wf true czip ps hp1 hp2 (fun _ => hpm), ?_,
    run2_wf false czip os ho1 ho2 (fun h => absurd h Bool.false_ne_true)⟩
  have hf : fuelFor [streamFst qs ++ h1 :: t1, streamSnd qs ++ h2 :: t2] =
      4 * qs.length + (12 * qs.length + 4 * t1.length + 12) := by
    simp [fuelFor, streamFst_length]
    omega
  obtain ⟨rn, b, z, hrun⟩ := cycles2 true czip qs
    (12 * qs.length + 4 * t1.length + 12)
    { streams := [streamFst qs ++ h1 :: t1, streamSnd qs ++ h2 :: t2],
      lineNum := 0, readCount := 0, readName := [], buf := [], zw := false,
      rows := [] } (h1 :: t1) (h2 :: t2) (by simp) rfl hq1 hq2 (fun _ => hqm)
  have e0 : (0 + 4 * qs.length) % 4 = 0 := by omega
  have h1f : 12 * qs.length + 4 * t1.length + 12 =
      (12 * qs.length + 4 * t1.length + 11) + 1 := by omega
  rw [run, hf, hrun, h1f, step2_mismatch 0 czip
    (12 * qs.length + 4 * t1.length + 11) _ h1 h2 t1 t2 rfl e0 hh1 hh2 hne
    (Or.inl rfl)]
  refine ⟨by simp, by simp, rfl⟩

/-- Witness for `C7_name_checking`: one matching checked pair, an
immediate mismatch (`k` vs `m`) on the first cycle, and an unchecked
mismatching pair. -/
theorem C7_name_checking_witness :
    ((run 0 true zlibModelSize
        [streamFst [(⟨"@a 1".data, "AC".data, "+".data, "II".data⟩,
                     ⟨"@a 2".data, "GG".data, "+".data, "II".data⟩)],
         streamSnd [(⟨"@a 1".data, "AC".data, "+".data, "II".data⟩,
                     ⟨"@a 2".data, "GG".data, "+".data, "II".data⟩)]]).1 = .done ∧
     (run 0 true zlibModelSize
        [streamFst [(⟨"@a 1".data, "AC".data, "+".data, "II".data⟩,
                     ⟨"@a 2".data, "GG".data, "+".data, "II".data⟩)],
         streamSnd [(⟨"@a 1".data, "AC".data, "+".data, "II".data⟩,
                     ⟨"@a 2".data, "GG".data, "+".data, "II".data⟩)]]).2.rows =
       [(⟨"@a 1".data, "AC".data, "+".data, "II".data⟩,
         ⟨"@a 2".data, "GG".data, "+".data, "II".data⟩)].map
         (expectedRow2 zlibModelSize)) ∧
    ((run 0 true zlibModelSize
        [streamFst [] ++ "@k 1".data :: ["ACGT".data],
         streamSnd [] ++ "@m 1".data :: ["ACGT".data]]).1 =
       .failed (.nameMismatch (readIdent "@k 1".data)
         (4 * ([] : List (Rec4 × Rec4)).length) 2 (readIdent "@m 1".data)) ∧
     (run 0 true zlibModelSize
        [streamFst [] ++ "@k 1".data :: ["ACGT".data],
         streamSnd [] ++ "@m 1".data :: ["ACGT".data]]).2.rows =
       ([] : List (Rec4 × Rec4)).map (expectedRow2 zlibModelSize) ∧
     RunError.message (.nameMismatch (readIdent "@k 1".data)
         (4 * ([] : List (Rec4 × Rec4)).length) 2 (readIdent "@m 1".data)) =
       "expecting read " ++ String.mk (readIdent "@k 1".data) ++ " on line "
         ++ toString (4 * ([] : List (Rec4 × Rec4)).length) ++ " in input "
         ++ toString 2 ++ ", got " ++ String.mk (readIdent "@m 1".data)) ∧
    ((run 0 false zlibModelSize
        [streamFst [(⟨"@x".data, "A".data, "+".data, "I".data⟩,
                     ⟨"@y".data, "C".data, "+".data, "I".data⟩)],
         streamSnd [(⟨"@x".data, "A".data, "+".data, "I".data⟩,
                     ⟨"@y".data, "C".data, "+".data, "I".data⟩)]]).1 = .done ∧
     (run 0 false zlibModelSize
        [streamFst [(⟨"@x".data, "A".data, "+".data, "I".data⟩,
                     ⟨"@y".data, "C".data, "+".data, "I".data⟩)],
         streamSnd [(⟨"@x".data, "A".data, "+".data, "I".data⟩,
                     ⟨"@y".data, "C".data, "+".data, "I".data⟩)]]).2.rows =
       [(⟨"@x".data, "A".data, "+".data, "I".data⟩,
         ⟨"@y".data, "C".data, "+".data, "I".data⟩)].map
         (expectedRow2 zlibModelSize)) :=
  C7_name_checking zlibModelSize _ _ _ _ _ _ _
    (by decide) (by decide) (by decide) (by decide) (by decide) (by decide)
    (by decide) (by decide) (by decide) (by decide) (by decide)

/-- Claim C8 is right about the intent but the code is buggy: with zero
positional arguments `main` opens no reader at all (`inputs` has length
`len(fq) = 0`; the stdin fallback in `AmbiReader.Open` is reachable only
for an explicitly empty path string), so nothing is ever read from
standard input; the loop's first iteration consumes nothing, and at
`line_num = 1` the emission branch calls `Close` on the never-allocated
nil `zwriter` — a nil-pointer-dereference panic.  No row is emitted. -/
theorem C8_zero_inputs_panic (limit : Nat) (check : Bool)
    (czip : List Char → Nat) :
    run limit check czip [] =
      (.panicked,
        { streams := [], lineNum := 1, readCount := 0, readName := [], buf := [],
          zw := false, rows := [] }) := by
  have hc : ¬(0 < limit ∧ limit = 0) := by omega
  have hc' : ¬(0 < limit ∧ limit ≤ 0) := by omega
  simp [run, fuelFor, runLoop, scanAll, procLine, hc, hc']

/-- Claim C9: each emitted row's compressed length is the total size of the
finalized compressor container — header, deflate body of exactly that
read's payload, and checksum trailer — and depends on nothing but that
read's own sequence payload (each record cycle resets the buffer and
allocates a fresh writer, finalized once at the sequence line). -/
theorem C9_compressed_length_is_container_size (check : Bool) (rs : List Rec4)
    (hw : ∀ r ∈ rs, hasAtSigil r.hdr = true) :
    (run 0 check zlibModelSize [stream1Lines rs]).1 = .done ∧
    (run 0 check zlibModelSize [stream1Lines rs]).2.rows =
      rs.map (fun r => ⟨readIdent r.hdr, r.seq.length,
        zlibHeaderLen + deflateModelLen (r.seq ++ ['\n']) + zlibChecksumLen⟩) := by
  have h := run1_wf check zlibModelSize rs hw
  refine ⟨h.1, ?_⟩
  rw [h.2]
  simp [expectedRow1, zlibModelSize]

/-- Witness for `C9_compressed_length_is_container_size` at two records
with different payloads (container sizes 2 + (5+5) + 4 = 16 and
2 + (5+1) + 4 = 12). -/
theorem C9_compressed_length_is_container_size_witness :
    (run 0 false zlibModelSize
        [stream1Lines [⟨"@a".data, "ACGT".data, "+".data, "IIII".data⟩,
                       ⟨"@b".data, [], "+".data, []⟩]]).1 = .done ∧
    (run 0 false zlibModelSize
        [stream1Lines [⟨"@a".data, "ACGT".data, "+".data, "IIII".data⟩,
                       ⟨"@b".data, [], "+".data, []⟩]]).2.rows =
      [(⟨"@a".data, "ACGT".data, "+".data, "IIII".data⟩ : Rec4),
       ⟨"@b".data, [], "+".data, []⟩].map
        (fun r => ⟨readIdent r.hdr, r.seq.length,
          zlibHeaderLen + deflateModelLen (r.seq ++ ['\n']) + zlibChecksumLen⟩) :=
  C9_compressed_length_is_container_size false _ (by decide)

/-- Claim C10: every emitted row of a run with the zlib-modelled compressor
has a strictly positive compressed length, whatever the input — the
container always holds its framing bytes, and each sequence line is
written with a trailing terminator — so the ratio computation never
divides by zero. -/
theorem C10_compressed_length_positive (limit : Nat) (check : Bool)
    (streams : List (List (List Char))) (r : Row)
    (hr : r ∈ (run limit check zlibModelSize streams).2.rows) :
    0 < r.compressedLen := by
  rw [run] at hr
  exact runLoop_rows_pos limit check zlibModelSize zlibModelSize_pos _ _
    (by simp) r hr

/-- Witness for `C10_compressed_length_positive` at a read whose sequence
line is empty (raw length 0, compressed length 12 > 0). -/
theorem C10_compressed_length_positive_witness :
    (⟨"e".data, 0, 12⟩ : Row) ∈
      (run 0 false zlibModelSize [["@e".data, [], "+".data, []]]).2.rows ∧
    0 < (⟨"e".data, 0, 12⟩ : Row).compressedLen :=
  ⟨by decide, C10_compressed_length_positive 0 false
    [["@e".data, [], "+".data, []]] ⟨"e".data, 0, 12⟩ (by decide)⟩

end ReadCompressability
